import Mathlib

/-!
Shallow embedding of the competition-risk-diagnostic rule engine
(`engine.py`, with the duplicated traversal/scoring helpers of `app.py`),
together with theorems checking the natural-language specification
against it.

Answers recorded during a session are either a single text label
(`singleSelect` / `text` questions) or a list of labels (`multiSelect`);
a question that was never answered reads back as the null value, exactly
as `answers.get(qid)` returns `None` in the source.
-/

namespace CompetitionRisk

/-- Values stored in the answer map: `null` (missing / Python `None`),
a single string, or a list of strings.  Structural equality of these
values coincides with the source's `_json_eq` (JSON-dump comparison). -/
inductive Value where
  | null : Value
  | s (v : String) : Value
  | l (vs : List String) : Value
deriving DecidableEq, Repr

/-- The answer map `answers : Dict[str, Any]`, as an insertion-ordered
association list from question id to recorded value. -/
abbrev AnswerSet := List (String × Value)

/-- Reading `answers.get(qid)`: the recorded value, or `null` when the
question was never answered. -/
def getAns (answers : AnswerSet) (qid : String) : Value :=
  (List.lookup qid answers).getD Value.null

/-- Predicate trees of the rulebook (`eval_predicate` in `engine.py`).
`none_` is an absent/falsy predicate (evaluates true); `other` is any
unrecognised node shape (evaluates false, fail-closed). -/
inductive Pred where
  | none_ : Pred
  | anyP (ps : List Pred) : Pred
  | allP (ps : List Pred) : Pred
  | notP (p : Pred) : Pred
  | equals (qid : String) (v : Value) : Pred
  | includes (qid : String) (v : String) : Pred
  | inVals (qid : String) (vs : List Value) : Pred
  | entityIn (vs : List String) : Pred
  | other : Pred

mutual

/-- Translation of `eval_predicate(pred, answers, entity_type)`.
The entity type is passed as a `Value` because the session threads
`entity_type or ""` through, which is whatever was recorded for the
entity-type question. -/
def eval_predicate (p : Pred) (answers : AnswerSet) (entity_type : Value) : Bool :=
  match p with
  | .none_ => true
  | .anyP ps => evalAnyList ps answers entity_type
  | .allP ps => evalAllList ps answers entity_type
  | .notP q => !eval_predicate q answers entity_type
  | .equals qid v => getAns answers qid == v
  | .includes qid v =>
      match getAns answers qid with
      | .l vs => vs.contains v
      | _ => false
  | .inVals qid vs => vs.any (fun v => getAns answers qid == v)
  | .entityIn vs =>
      match entity_type with
      | .s e => vs.contains e
      | _ => false
  | .other => false

/-- Python `any(eval_predicate(p, ...) for p in ps)`. -/
def evalAnyList (ps : List Pred) (answers : AnswerSet) (entity_type : Value) : Bool :=
  match ps with
  | [] => false
  | p :: rest => eval_predicate p answers entity_type || evalAnyList rest answers entity_type

/-- Python `all(eval_predicate(p, ...) for p in ps)`. -/
def evalAllList (ps : List Pred) (answers : AnswerSet) (entity_type : Value) : Bool :=
  match ps with
  | [] => true
  | p :: rest => eval_predicate p answers entity_type && evalAllList rest answers entity_type

end

/-- ASCII whitespace, the characters Python `str.strip` and `\s` remove
from the rulebook's text fields. -/
def isWsChar (c : Char) : Bool :=
  c == ' ' || c == '\t' || c == '\n' || c == '\r' || c == '\x0b' || c == '\x0c'

/-- Python `s.strip()` on a character list. -/
def stripBoth (cs : List Char) : List Char :=
  ((cs.dropWhile isWsChar).reverse.dropWhile isWsChar).reverse

/-- Python `s.strip()`. -/
def pyStrip (s : String) : String :=
  String.mk (stripBoth s.data)

/-- An option of a question block.  `points` is `Option Int` because the
source reads it with `c.get("points", 0)`; the trailing fields are the
qualitative metadata keys `engine.py` copies onto items, plus the
severity markers `hardcore` and `tag` that a rulebook author may put on
an option (the engine never reads them). -/
structure Opt where
  text : String
  points : Option Int
  next_step : Option String
  risk_comment : Option String
  legal_basis : Option String
  action_priority : Option String
  hardcore : Option Bool
  tag : Option String
deriving DecidableEq, Repr

/-- Python `int(c.get("points", 0))`. -/
def optPoints (o : Opt) : Int := o.points.getD 0

/-- The `appliesTo` field: the raw YAML value is either a scalar string
(only `"all"` matches everything) or a list of entity-type labels. -/
inductive AppliesTo where
  | strv (v : String) : AppliesTo
  | listv (es : List String) : AppliesTo
deriving DecidableEq, Repr

/-- A conditional jump in a block's `next` list; `when_` defaults to an
absent predicate and `targetId` may be missing (`rule.get("targetId")`). -/
structure Route where
  when_ : Pred
  targetId : Option String

/-- A normalized question block, as produced by `normalize_rules`. -/
structure Block where
  id : String
  domain : Option String
  question : Option String
  kind : String
  options : List Opt
  appliesTo : AppliesTo
  showIf : Pred
  next : List Route

/-- Python `(block.get("kind") or "singleSelect").strip()`. -/
def kindOf (b : Block) : String :=
  pyStrip (if b.kind == "" then "singleSelect" else b.kind)

/-- Translation of `applies_to(block, entity_type)`. -/
def applies_to (b : Block) (entity_type : Value) : Bool :=
  match b.appliesTo with
  | .strv v => v == "all"
  | .listv es =>
      match entity_type with
      | .s e => es.contains e
      | _ => false

/-- Translation of `is_visible(block, answers, entity_type)`. -/
def is_visible (b : Block) (answers : AnswerSet) (entity_type : Value) : Bool :=
  eval_predicate b.showIf answers entity_type

/-- Translation of `next_via_routes`: the `targetId` of the first route
whose `when` predicate holds (the asked-set plays no part here). -/
def next_via_routes (b : Block) (answers : AnswerSet) (entity_type : Value) : Option String :=
  (b.next.find? (fun r => eval_predicate r.when_ answers entity_type)).bind Route.targetId

/-! Rulebook normalisation (`_slug`, `ENTITY_PICKER_BLOCK`,
`normalize_rules` in `engine.py`). -/

/-- Python `re.sub(r"\s+", "-", s)` on an already-stripped character
list: each maximal whitespace run becomes a single hyphen.  `prevWs`
records whether the previous character was whitespace. -/
def collapseWs (prevWs : Bool) : List Char → List Char
  | [] => []
  | c :: rest =>
      if isWsChar c then
        if prevWs then collapseWs true rest else '-' :: collapseWs true rest
      else c :: collapseWs false rest

/-- Translation of `_slug`: strip, collapse whitespace to hyphens, drop
characters outside `[a-zA-Z0-9-]`, lowercase, fall back to `"q"` when
empty, truncate to 40 characters. -/
def _slug (s : String) : String :=
  let collapsed := collapseWs false (stripBoth s.data)
  let kept := collapsed.filter (fun c => c.isAlphanum || c == '-')
  let lowered := kept.map Char.toLower
  String.mk ((if lowered.isEmpty then ['q'] else lowered).take 40)

/-- Python `f"{i:02d}"` for the 1-based block index. -/
def pad2 (n : Nat) : String :=
  if n < 10 then "0" ++ toString n else toString n

/-- A zero-point option carrying only a label, as in the built-in
entity picker. -/
def opt0 (t : String) : Opt :=
  { text := t, points := some 0, next_step := none, risk_comment := none,
    legal_basis := none, action_priority := none, hardcore := none, tag := none }

/-- Translation of `ENTITY_PICKER_BLOCK`: the fixed built-in entity-type
selector with its 18 zero-point organisation-type options. -/
def ENTITY_PICKER_BLOCK : Block :=
  { id := "entityType",
    domain := some "Meta",
    question := some "Which best describes your organisation?",
    kind := "singleSelect",
    options :=
      [ opt0 "International Federation", opt0 "National Federation",
        opt0 "League Operator", opt0 "Club / Team",
        opt0 "Event Owner / Promoter", opt0 "Players' Union",
        opt0 "Athlete / Agent", opt0 "Refereeing Body",
        opt0 "Academy / Training Centre", opt0 "Venue / Stadium Operator",
        opt0 "Data / Analytics Provider", opt0 "Ticketing / Hospitality",
        opt0 "Betting / Integrity Partner", opt0 "Broadcast / Media / OTT",
        opt0 "Sponsorship / Marketing Agency", opt0 "Merchandising / Licensing",
        opt0 "Technology Platform", opt0 "Esports Organisation" ],
    appliesTo := .strv "all",
    showIf := .none_,
    next := [] }

/-- A raw rulebook entry before normalisation: `none` fields are the
keys the loose YAML record may omit.  An absent-or-null `options` both
normalise to `[]` (`nb.get("options", []) or []`). -/
structure RawBlock where
  id : Option String
  domain : Option String
  question : Option String
  kind : Option String
  appliesTo : Option AppliesTo
  options : Option (List Opt)
  showIf : Pred
  next : List Route

/-- One iteration of the `normalize_rules` loop at 1-based index `i`:
`setdefault` for `id` / `kind` / `appliesTo`, and the `options`
coercion. -/
def normalize_block (i : Nat) (b : RawBlock) : Block :=
  { id := b.id.getD ("q" ++ pad2 i ++ "_" ++ _slug (b.question.getD "")),
    domain := b.domain,
    question := b.question,
    kind := b.kind.getD "singleSelect",
    appliesTo := b.appliesTo.getD (.strv "all"),
    options := b.options.getD [],
    showIf := b.showIf,
    next := b.next }

/-- The `for i, b in enumerate(raw_rules, start=1)` loop. -/
def normalize_from (i : Nat) : List RawBlock → List Block
  | [] => []
  | b :: rest => normalize_block i b :: normalize_from (i + 1) rest

/-- Translation of `normalize_rules`: apply per-block defaults, then
prepend the built-in entity picker when no block has id `entityType`. -/
def normalize_rules (raw : List RawBlock) : List Block :=
  let norm := normalize_from 1 raw
  if norm.any (fun b => b.id == "entityType") then norm
  else ENTITY_PICKER_BLOCK :: norm

/-! Session state and the answer-processing step (the body of the
`while current_id` loop in `engine.run`, duplicated by the submit
handlers and `_record_item` in `app.py`). -/

/-- One recorded item.  The four metadata fields are the keys the source
copies from the chosen option (`next_step`, `risk_comment`,
`legal_basis`, `action_priority`); an option's `hardcore` and `tag`
markers are never copied, so an item has no such fields. -/
structure Item where
  id : String
  domain : String
  question : String
  answer : String
  points : Int
  next_step : Option String
  risk_comment : Option String
  legal_basis : Option String
  action_priority : Option String
deriving DecidableEq, Repr

/-- Building an item from a chosen option (`engine.run`'s item dicts). -/
def mkItem (cid dom q : String) (ans : String) (pts : Int) (o : Opt) : Item :=
  { id := cid, domain := dom, question := q, answer := ans, points := pts,
    next_step := o.next_step, risk_comment := o.risk_comment,
    legal_basis := o.legal_basis, action_priority := o.action_priority }

/-- The per-session mutable state of `engine.run` (and of
`st.session_state` in `app.py`). -/
structure SessionState where
  answers : AnswerSet
  asked : List String
  domain_scores : List (String × Int)
  items_by_domain : List (String × List Item)
  all_items : List Item
  entity_type : Option Value

/-- Python dict assignment `m[k] = v`: overwrite in place when the key
exists, else append at the end (insertion order preserved). -/
def dictSet {α : Type} (m : List (String × α)) (k : String) (v : α) : List (String × α) :=
  if m.any (fun p => p.1 == k) then
    m.map (fun p => if p.1 = k then (k, v) else p)
  else m ++ [(k, v)]

/-- Python `asked.add(cid)` on the set of asked question ids. -/
def addAsked (asked : List String) (cid : String) : List String :=
  if asked.contains cid then asked else asked ++ [cid]

/-- The shared tail of the three answer branches: record the answer,
append the new items under the domain (`setdefault(...).append`), add
the points to the domain score, capture the entity type when the block
is `entityType`, and mark the question asked.  `toAll` is false for the
`text` branch, which does not append to `all_items` in the source. -/
def recordAnswer (st : SessionState) (cid : String) (ansVal : Value) (dom : String)
    (pts : Int) (newItems : List Item) (toAll : Bool) : SessionState :=
  { answers := dictSet st.answers cid ansVal,
    asked := addAsked st.asked cid,
    domain_scores :=
      dictSet st.domain_scores dom ((List.lookup dom st.domain_scores).getD 0 + pts),
    items_by_domain :=
      dictSet st.items_by_domain dom
        ((List.lookup dom st.items_by_domain).getD [] ++ newItems),
    all_items := st.all_items ++ (if toAll then newItems else []),
    entity_type := if cid == "entityType" then some ansVal else st.entity_type }

/-- What the interactive prompt hands back for one question: the chosen
option list of a `multiSelect` (already de-duplicated by the prompt
helper), the text of a `text` answer, or the chosen option of a
`singleSelect` (for an option-less block, the free-text fallback option
`{text: val, points: 0}`). -/
inductive UserAnswer where
  | multi (chosen : List Opt) : UserAnswer
  | textAns (val : String) : UserAnswer
  | single (chosen : Opt) : UserAnswer

/-- Python `sum(int(c.get("points", 0)) for c in chosen_list)`. -/
def sumOptPoints (chosen : List Opt) : Int :=
  (chosen.map optPoints).sum

/-- One answer submission: the ask/score/record part of the `engine.run`
loop body for the current block.  The catch-all arms return the state
unchanged; they are unreachable because the prompt helper invoked for a
block always produces the answer shape of that block's kind. -/
def process_answer (st : SessionState) (cid : String) (block : Block)
    (ua : UserAnswer) : SessionState :=
  let q := block.question.getD "<no question>"
  let dom := block.domain.getD "General"
  if kindOf block == "multiSelect" then
    match ua with
    | .multi chosen =>
        recordAnswer st cid (Value.l (chosen.map (·.text))) dom (sumOptPoints chosen)
          (chosen.map (fun c => mkItem cid dom q c.text (optPoints c) c)) true
    | _ => st
  else if kindOf block == "text" then
    match ua with
    | .textAns v =>
        recordAnswer st cid (Value.s v) dom 0
          [{ id := cid, domain := dom, question := q, answer := v, points := 0,
             next_step := none, risk_comment := none, legal_basis := none,
             action_priority := none }] false
    | _ => st
  else
    match ua with
    | .single c =>
        recordAnswer st cid (Value.s c.text) dom (optPoints c)
          [mkItem cid dom q c.text (optPoints c) c] true
    | _ => st

/-- The state a session starts from. -/
def initState : SessionState :=
  { answers := [], asked := [], domain_scores := [], items_by_domain := [],
    all_items := [], entity_type := none }

/-- A whole session prefix: fold the submissions over the initial state. -/
def runSteps (steps : List (String × Block × UserAnswer)) : SessionState :=
  steps.foldl (fun st x => process_answer st x.1 x.2.1 x.2.2) initState

/-! Traversal: picking the next question (`engine.run` lines after the
answer is recorded, and `_next_question` in `app.py`). -/

/-- Python truthiness of a recorded value. -/
def vTruthy (v : Value) : Bool :=
  match v with
  | .null => false
  | .s x => x != ""
  | .l xs => !xs.isEmpty

/-- Python truthiness of the session's `entity_type` field. -/
def etTruthy (et : Option Value) : Bool :=
  match et with
  | some v => vTruthy v
  | none => false

/-- Python `entity_type or ""`, threaded into routing and predicates. -/
def orElseEmpty (et : Option Value) : Value :=
  match et with
  | some v => if vTruthy v then v else Value.s ""
  | none => Value.s ""

/-- Python `by_id = {b["id"]: b for b in rules}` (a later duplicate id
overwrites an earlier one). -/
def by_id (rules : List Block) (bid : String) : Option Block :=
  (rules.filter (fun b => b.id == bid)).getLast?

/-- Python `order = [b["id"] for b in rules]`. -/
def order_ids (rules : List Block) : List String :=
  rules.map (·.id)

/-- The declaration-order fallback scan: the first block id that is not
yet asked, applies to the entity type and is visible. -/
def default_next (rules : List Block) (answers : AnswerSet) (e : Value)
    (asked : List String) : Option String :=
  (order_ids rules).find? (fun bid =>
    !asked.contains bid &&
      (match by_id rules bid with
       | some b => applies_to b e && is_visible b answers e
       | none => false))

/-- The fallback step guarded by `if entity_type:` — skipped entirely
when the recorded entity type is falsy. -/
def default_fallback (rules : List Block) (answers : AnswerSet) (et : Option Value)
    (asked : List String) : Option String :=
  if etTruthy et then default_next rules answers (orElseEmpty et) asked else none

/-- The next-question decision after an answer: try the current block's
routes (`if nxt and nxt not in asked`), else the declaration-order
fallback. -/
def next_question (rules : List Block) (block : Block) (answers : AnswerSet)
    (et : Option Value) (asked : List String) : Option String :=
  match next_via_routes block answers (orElseEmpty et) with
  | some t =>
      if t != "" && !asked.contains t then some t
      else default_fallback rules answers et asked
  | none => default_fallback rules answers et asked

/-! Risk bucketing and the report payload (`risk_bucket`, the
report-building tail of `engine.run`, `_build_payload` in `app.py`). -/

/-- Translation of `risk_bucket`. -/
def risk_bucket (score : Int) : String :=
  if score ≥ 60 then "HIGH"
  else if score ≥ 25 then "MEDIUM"
  else "LOW"

/-- One entry of the report's `domains` list. -/
structure DomainEntry where
  name : String
  score : Int
  risk : String
  items : List Item
  rationale : List String
  next_steps : List String
deriving DecidableEq, Repr

/-- The report's `domains` list: one entry per domain in score-sheet
order, with the domain's items and its risk bucket. -/
def domains_list (st : SessionState) : List DomainEntry :=
  st.domain_scores.map (fun p =>
    { name := p.1, score := p.2, risk := risk_bucket p.2,
      items := (List.lookup p.1 st.items_by_domain).getD [],
      rationale := [], next_steps := [] })

/-- The report's `total_score`: the sum of all domain scores. -/
def total_score (st : SessionState) : Int :=
  (st.domain_scores.map (·.2)).sum

/-- The report's `overall_risk`. -/
def overall_risk (st : SessionState) : String :=
  risk_bucket (total_score st)

/-! A routing function written from the specification's words, for
comparison with the code's routing, and helpers that erase the severity
markers from a session's inputs. -/

/-- Modelled from the spec (§4.3 step 1), for comparison with the
code's `next_via_routes`: return the `targetId` of the first route whose
`when` predicate holds AND whose target has not already been asked. -/
def spec_route_next (b : Block) (answers : AnswerSet) (entity_type : Value)
    (asked : List String) : Option String :=
  (b.next.find? (fun r =>
      eval_predicate r.when_ answers entity_type &&
        (match r.targetId with
         | some t => !asked.contains t
         | none => false))).bind Route.targetId

/-- Strip the severity markers from an option, leaving every field the
engine reads untouched. -/
def eraseSeverity (o : Opt) : Opt :=
  { o with hardcore := none, tag := none }

/-- Strip the severity markers from one submitted answer. -/
def eraseSeverityUA (ua : UserAnswer) : UserAnswer :=
  match ua with
  | .multi chosen => .multi (chosen.map eraseSeverity)
  | .textAns v => .textAns v
  | .single c => .single (eraseSeverity c)

/-- Strip the severity markers from every submission of a session. -/
def eraseSeveritySteps (steps : List (String × Block × UserAnswer)) :
    List (String × Block × UserAnswer) :=
  steps.map (fun x => (x.1, x.2.1, eraseSeverityUA x.2.2))

/-! Concrete fixtures used by counterexamples and witnesses. -/

/-- An option worth 10 points flagged `hardcore: true` with a severity
tag, as a rulebook author would mark a hardcore restriction. -/
def hcOpt : Opt :=
  { text := "A", points := some 10, next_step := none, risk_comment := none,
    legal_basis := none, action_priority := none, hardcore := some true,
    tag := some "resale price maintenance" }

/-- A single-select block in domain `D` offering only `hcOpt`. -/
def hcBlock : Block :=
  { id := "q1", domain := some "D", question := some "Q", kind := "singleSelect",
    options := [hcOpt], appliesTo := .strv "all", showIf := .none_, next := [] }

/-- A one-question session answering `hcBlock` with the hardcore
option: domain `D` totals 10 points and records one item. -/
def hcSteps : List (String × Block × UserAnswer) := [("q1", hcBlock, .single hcOpt)]

/-- A plain always-applicable, always-visible single-select block. -/
def plainBlock (i : String) : Block :=
  { id := i, domain := some "D", question := some ("Q" ++ i), kind := "singleSelect",
    options := [], appliesTo := .strv "all", showIf := .none_, next := [] }

/-- A current block with two always-matching routes: first to `a`, then
to `b`. -/
def twoRouteBlock : Block :=
  { plainBlock "cur" with
      next := [⟨Pred.none_, some "a"⟩, ⟨Pred.none_, some "b"⟩] }

/-- The rulebook for the routing counterexample: declaration order puts
the unrelated block `c` before the route targets `a` and `b`. -/
def routeRules : List Block :=
  [twoRouteBlock, plainBlock "c", plainBlock "a", plainBlock "b"]

/-- A target block that applies to no entity type and whose `showIf`
is an unrecognised predicate node (so it is never visible). -/
def gatedTarget : Block :=
  { id := "t", domain := some "D", question := some "Qt", kind := "singleSelect",
    options := [], appliesTo := .listv [], showIf := .other, next := [] }

/-- A block whose only route always fires at the gated target. -/
def routeToGated : Block :=
  { plainBlock "src" with next := [⟨Pred.none_, some "t"⟩] }

/-! Helper lemmas about the association-list dictionary operations. -/

theorem lookup_of_any_eq_false {α : Type} (m : List (String × α)) (k : String)
    (h : m.any (fun p => p.1 == k) = false) : List.lookup k m = none := by
  induction m with
  | nil => rfl
  | cons hd tl ih =>
      simp only [List.any_cons, Bool.or_eq_false_iff, beq_eq_false_iff_ne, ne_eq] at h
      have hne : (k == hd.1) = false := by
        simp only [beq_eq_false_iff_ne, ne_eq]
        exact fun he => h.1 he.symm
      simp only [List.lookup, hne]
      exact ih (by simpa using h.2)

theorem lookup_map_replace {α : Type} (m : List (String × α)) (k : String) (v : α)
    (h : m.any (fun p => p.1 == k) = true) :
    List.lookup k (m.map (fun p => if p.1 = k then (k, v) else p)) = some v := by
  induction m with
  | nil => simp at h
  | cons hd tl ih =>
      simp only [List.any_cons, Bool.or_eq_true, beq_iff_eq] at h
      simp only [List.map_cons]
      by_cases hk : hd.1 = k
      · rw [if_pos hk]
        simp [List.lookup]
      · rw [if_neg hk]
        have hke : (k == hd.1) = false := by
          simp only [beq_eq_false_iff_ne, ne_eq]
          exact fun he => hk he.symm
        have h0 : tl.any (fun p => p.1 == k) = true := by
          cases h with
          | inl h1 => exact absurd h1 hk
          | inr h1 => exact h1
        simp only [List.lookup, hke]
        exact ih h0

theorem lookup_map_replace_ne {α : Type} (m : List (String × α)) (k k' : String) (v : α)
    (h : k' ≠ k) :
    List.lookup k' (m.map (fun p => if p.1 = k then (k, v) else p)) =
      List.lookup k' m := by
  induction m with
  | nil => rfl
  | cons hd tl ih =>
      simp only [List.map_cons]
      by_cases hk : hd.1 = k
      · have h1 : (k' == k) = false := by simp [h]
        have h2 : (k' == hd.1) = false := by
          simp only [beq_eq_false_iff_ne, ne_eq]
          exact fun he => h (he.trans hk)
        rw [if_pos hk]
        simp only [List.lookup, h1, h2]
        exact ih
      · rw [if_neg hk]
        cases hbe2 : (k' == hd.1) with
        | true => simp [List.lookup, hbe2]
        | false =>
            simp only [List.lookup, hbe2]
            exact ih

theorem lookup_append_right {α : Type} (m l : List (String × α)) (k : String)
    (h : List.lookup k m = none) : List.lookup k (m ++ l) = List.lookup k l := by
  induction m with
  | nil => rfl
  | cons hd tl ih =>
      cases hbe : (k == hd.1) with
      | true => simp [List.lookup, hbe] at h
      | false =>
          simp only [List.lookup, hbe] at h
          simp [List.lookup, hbe, ih h]

theorem lookup_append_single_ne {α : Type} (m : List (String × α)) (k k' : String)
    (v : α) (h : k' ≠ k) : List.lookup k' (m ++ [(k, v)]) = List.lookup k' m := by
  have hke : (k' == k) = false := by simp [h]
  induction m with
  | nil => simp [List.lookup, hke]
  | cons hd tl ih =>
      cases hbe : (k' == hd.1) with
      | true => simp [List.lookup, hbe]
      | false => simp [List.lookup, hbe, ih]

theorem lookup_dictSet_self {α : Type} (m : List (String × α)) (k : String) (v : α) :
    List.lookup k (dictSet m k v) = some v := by
  unfold dictSet
  cases hany : m.any (fun p => p.1 == k) with
  | true => simp only [hany, if_true]; exact lookup_map_replace m k v hany
  | false =>
      simp only [hany, Bool.false_eq_true, if_false]
      rw [lookup_append_right m _ k (lookup_of_any_eq_false m k hany)]
      simp [List.lookup]

theorem lookup_dictSet_ne {α : Type} (m : List (String × α)) (k k' : String) (v : α)
    (h : k' ≠ k) : List.lookup k' (dictSet m k v) = List.lookup k' m := by
  unfold dictSet
  cases hany : m.any (fun p => p.1 == k) with
  | true => simp only [hany, if_true]; exact lookup_map_replace_ne m k k' v h
  | false =>
      simp only [hany, Bool.false_eq_true, if_false]
      exact lookup_append_single_ne m k k' v h

/-! The score/item bookkeeping invariant and its preservation. -/

/-- The sum of the `points` fields over a list of items. -/
def itemsSum (its : List Item) : Int :=
  (its.map Item.points).sum

/-- Every domain's accumulated score equals the sum of `points` over
the items recorded under that domain. -/
def ScoresMatchItems (st : SessionState) : Prop :=
  ∀ d : String,
    (List.lookup d st.domain_scores).getD 0 =
      itemsSum ((List.lookup d st.items_by_domain).getD [])

theorem itemsSum_append (a b : List Item) :
    itemsSum (a ++ b) = itemsSum a + itemsSum b := by
  simp [itemsSum]

theorem recordAnswer_preserves (st : SessionState) (cid : String) (ansVal : Value)
    (dom : String) (pts : Int) (newItems : List Item) (toAll : Bool)
    (hsum : itemsSum newItems = pts) (hinv : ScoresMatchItems st) :
    ScoresMatchItems (recordAnswer st cid ansVal dom pts newItems toAll) := by
  intro d
  unfold recordAnswer
  by_cases hd : d = dom
  · subst hd
    rw [lookup_dictSet_self, lookup_dictSet_self]
    simp only [Option.getD_some, itemsSum_append, hsum]
    rw [← hinv d]
  · rw [lookup_dictSet_ne _ _ _ _ hd, lookup_dictSet_ne _ _ _ _ hd]
    exact hinv d

theorem process_answer_preserves (st : SessionState) (cid : String) (block : Block)
    (ua : UserAnswer) (hinv : ScoresMatchItems st) :
    ScoresMatchItems (process_answer st cid block ua) := by
  unfold process_answer
  by_cases h1 : kindOf block == "multiSelect"
  · simp only [h1, if_true]
    cases ua with
    | multi chosen =>
        refine recordAnswer_preserves _ _ _ _ _ _ _ ?_ hinv
        simp [itemsSum, sumOptPoints, mkItem, List.map_map, Function.comp_def]
    | textAns v => exact hinv
    | single c => exact hinv
  · simp only [h1, Bool.false_eq_true, if_false]
    by_cases h2 : kindOf block == "text"
    · simp only [h2, if_true]
      cases ua with
      | multi chosen => exact hinv
      | textAns v =>
          refine recordAnswer_preserves _ _ _ _ _ _ _ ?_ hinv
          simp [itemsSum]
      | single c => exact hinv
    · simp only [h2, Bool.false_eq_true, if_false]
      cases ua with
      | multi chosen => exact hinv
      | textAns v => exact hinv
      | single c =>
          refine recordAnswer_preserves _ _ _ _ _ _ _ ?_ hinv
          simp [itemsSum, mkItem]

/-! Helper lemmas for normalisation, traversal and severity erasure. -/

theorem synth_id_ne_entityType (i : Nat) (q : String) :
    ("q" ++ pad2 i ++ "_" ++ _slug q) ≠ "entityType" := by
  intro h
  have h2 : 'q' :: (((pad2 i).data ++ "_".data) ++ (_slug q).data) =
      'e' :: "ntityType".data := congrArg String.data h
  injection h2 with hc _
  exact absurd hc (by decide)

theorem normalize_from_no_entityType (raw : List RawBlock) (i : Nat)
    (h : ∀ b ∈ raw, b.id ≠ some "entityType") :
    (normalize_from i raw).any (fun b => b.id == "entityType") = false := by
  induction raw generalizing i with
  | nil => rfl
  | cons hd tl ih =>
      simp only [normalize_from, List.any_cons, Bool.or_eq_false_iff]
      refine ⟨?_, ih (i + 1) (fun b hb => h b (List.mem_cons_of_mem _ hb))⟩
      simp only [beq_eq_false_iff_ne, ne_eq, normalize_block]
      cases hid : hd.id with
      | some s =>
          have := h hd (List.mem_cons_self _ _)
          rw [hid] at this
          simpa using fun he => this (by rw [he])
      | none => simpa using synth_id_ne_entityType i (hd.question.getD "")

theorem default_fallback_not_asked (rules : List Block) (answers : AnswerSet)
    (et : Option Value) (asked : List String) (q : String)
    (hq : asked.contains q = true) :
    default_fallback rules answers et asked ≠ some q := by
  unfold default_fallback
  by_cases he : etTruthy et = true
  · rw [if_pos he]
    intro hfind
    have hp := List.find?_some hfind
    simp only [Bool.and_eq_true, Bool.not_eq_true'] at hp
    rw [hq] at hp
    exact absurd hp.1 (by simp)
  · rw [if_neg he]
    exact fun hfind => Option.noConfusion hfind

theorem eraseSeverity_text (o : Opt) : (eraseSeverity o).text = o.text := rfl

theorem optPoints_eraseSeverity (o : Opt) : optPoints (eraseSeverity o) = optPoints o := rfl

theorem mkItem_eraseSeverity (cid dom q a : String) (pts : Int) (o : Opt) :
    mkItem cid dom q a pts (eraseSeverity o) = mkItem cid dom q a pts o := rfl

theorem process_answer_erase (st : SessionState) (cid : String) (block : Block)
    (ua : UserAnswer) :
    process_answer st cid block (eraseSeverityUA ua) = process_answer st cid block ua := by
  cases ua with
  | multi chosen =>
      simp [process_answer, eraseSeverityUA, sumOptPoints, List.map_map,
        Function.comp_def, eraseSeverity_text, optPoints_eraseSeverity,
        mkItem_eraseSeverity]
  | textAns v => rfl
  | single c =>
      simp [process_answer, eraseSeverityUA, eraseSeverity_text,
        optPoints_eraseSeverity, mkItem_eraseSeverity]

/-! Claim theorems. -/

/-- C5: after every sequence of answer submissions, every domain's
accumulated score equals the sum of the `points` fields over the items
recorded under that domain — the multiSelect branch adds the sum of the
selected options' points and one item per selection, the text branch
adds 0 points and one zero-point item, and the singleSelect branch adds
the chosen option's points and one item. -/
theorem c5_domain_scores_match_items (steps : List (String × Block × UserAnswer)) :
    ScoresMatchItems (runSteps steps) := by
  have main : ∀ (l : List (String × Block × UserAnswer)) (st : SessionState),
      ScoresMatchItems st →
      ScoresMatchItems (l.foldl (fun st x => process_answer st x.1 x.2.1 x.2.2) st) := by
    intro l
    induction l with
    | nil => intro st h; exact h
    | cons hd tl ih =>
        intro st h
        exact ih _ (process_answer_preserves st hd.1 hd.2.1 hd.2.2 h)
  exact main steps initState (fun d => rfl)

/-- C6: evaluating the negation node `{not: p}` yields the boolean
complement of evaluating `p`, for every predicate, answer set and
entity type. -/
theorem c6_not_complement (p : Pred) (a : AnswerSet) (e : Value) :
    eval_predicate (Pred.notP p) a e = !eval_predicate p a e := rfl

/-- C8 as written is false: with an unanswered question id, the `in`
predicate evaluates TRUE when its literal value list contains `null`,
because the missing answer reads back as `null` and compares equal to
it. -/
theorem c8_null_in_values_counterexample :
    List.lookup "x" ([] : AnswerSet) = none ∧
      eval_predicate (Pred.inVals "x" [Value.null]) [] (Value.s "") = true :=
  ⟨rfl, rfl⟩

/-- C8 amended: when the referenced question has no recorded answer,
`includes` evaluates to false for every value, and `in` evaluates to
false provided none of its literal values is `null` (the encoding of a
missing answer). -/
theorem c8_unanswered_membership_false (qid : String) (v : String) (vs : List Value)
    (a : AnswerSet) (e : Value) (h : List.lookup qid a = none)
    (hnn : Value.null ∉ vs) :
    eval_predicate (Pred.includes qid v) a e = false ∧
      eval_predicate (Pred.inVals qid vs) a e = false := by
  have hga : getAns a qid = Value.null := by simp [getAns, h]
  constructor
  · show (match getAns a qid with
          | .l ws => ws.contains v
          | _ => false) = false
    rw [hga]
  · show vs.any (fun w => getAns a qid == w) = false
    rw [hga]
    simp only [List.any_eq_false, beq_iff_eq]
    exact fun w hw he => hnn (he ▸ hw)

/-- Witness for the amended C8 at a concrete unanswered question. -/
theorem c8_unanswered_membership_false_witness :
    List.lookup "x" ([] : AnswerSet) = none ∧ Value.null ∉ [Value.s "z"] ∧
      (eval_predicate (Pred.includes "x" "y") [] Value.null = false ∧
        eval_predicate (Pred.inVals "x" [Value.s "z"]) [] Value.null = false) :=
  ⟨rfl, by decide,
    c8_unanswered_membership_false "x" "y" [Value.s "z"] [] Value.null rfl (by decide)⟩

/-- C2 as written is false: when the first route whose `when` predicate
holds points at an already-asked target, the code does NOT continue
with the remaining routes (which here would give `b`); it falls through
to declaration-order traversal and returns `c`. -/
theorem c2_asked_target_route_counterexample :
    spec_route_next twoRouteBlock [] (Value.s "E") ["cur", "a"] = some "b" ∧
      next_question routeRules twoRouteBlock [] (some (Value.s "E")) ["cur", "a"] =
        some "c" ∧
      (some "c" : Option String) ≠ some "b" :=
  ⟨by decide, by decide, by decide⟩

/-- C1 as written is false: a domain with total score 10 whose single
recorded item came from an option flagged `hardcore: true` (and a
severity tag) is reported LOW, and so is the overall risk — the code
has no override. -/
theorem c1_hardcore_item_low_counterexample :
    hcOpt.hardcore = some true ∧ hcOpt.points = some 10 ∧
      (domains_list (runSteps hcSteps)).map (fun d => (d.name, d.score, d.risk)) =
        [("D", 10, "LOW")] ∧
      overall_risk (runSteps hcSteps) = "LOW" :=
  ⟨rfl, rfl, by decide, by decide⟩

/-- C1 amended: there is no severity override — for every session, each
domain's reported risk and the overall risk are exactly the threshold
function of the numeric scores, no override reason exists in the
payload, and erasing every `hardcore`/`tag` marker from the submitted
options leaves the session state (hence the whole report) unchanged. -/
theorem c1_no_severity_override (steps : List (String × Block × UserAnswer)) :
    ((domains_list (runSteps steps)).all
        (fun d => d.risk == risk_bucket d.score)) = true ∧
      overall_risk (runSteps steps) = risk_bucket (total_score (runSteps steps)) ∧
      runSteps (eraseSeveritySteps steps) = runSteps steps := by
  refine ⟨?_, rfl, ?_⟩
  · rw [List.all_eq_true]
    intro d hd
    obtain ⟨p, _, rfl⟩ := List.mem_map.mp hd
    exact beq_self_eq_true _
  · have main : ∀ (l : List (String × Block × UserAnswer)) (st : SessionState),
        (eraseSeveritySteps l).foldl (fun st x => process_answer st x.1 x.2.1 x.2.2) st =
          l.foldl (fun st x => process_answer st x.1 x.2.1 x.2.2) st := by
      intro l
      induction l with
      | nil => intro st; rfl
      | cons hd tl ih =>
          intro st
          simp only [eraseSeveritySteps, List.map_cons, List.foldl_cons]
          rw [process_answer_erase st hd.1 hd.2.1 hd.2.2]
          exact ih _
    exact main steps initState

/-- C2 amended: the routing step considers only the first route whose
`when` predicate holds — routes after it never affect the outcome — and
when that route's target is empty or already asked the engine falls
through to the declaration-order fallback instead of trying the
remaining routes. -/
theorem c2_first_matching_route_decides (rules : List Block) (b : Block) (r : Route)
    (rest : List Route) (answers : AnswerSet) (et : Option Value)
    (asked : List String)
    (h : eval_predicate r.when_ answers (orElseEmpty et) = true) :
    next_question rules { b with next := r :: rest } answers et asked =
      next_question rules { b with next := [r] } answers et asked ∧
      (∀ t, r.targetId = some t → (t = "" ∨ asked.contains t = true) →
        next_question rules { b with next := r :: rest } answers et asked =
          default_fallback rules answers et asked) := by
  have hfind : ∀ l : List Route,
      (r :: l).find? (fun q => eval_predicate q.when_ answers (orElseEmpty et)) =
        some r := by
    intro l
    exact List.find?_cons_of_pos _ h
  constructor
  · unfold next_question next_via_routes
    simp only [hfind]
  · intro t ht hcase
    unfold next_question next_via_routes
    simp only [hfind, Option.some_bind, ht]
    rcases hcase with he | ha
    · subst he
      simp
    · have hc : (t != "" && !asked.contains t) = false := by rw [ha]; simp
      rw [if_neg (by rw [hc]; simp)]

/-- A route that always fires at `a`, and one that always fires at `b`,
used by the C2 witness. -/
def rA : Route := ⟨Pred.none_, some "a"⟩

/-- See `rA`. -/
def rB : Route := ⟨Pred.none_, some "b"⟩

/-- Witness for the amended C2 with `a` already asked: the later route
`rB` is irrelevant and the engine falls through to the fallback. -/
theorem c2_first_matching_route_decides_witness :
    eval_predicate rA.when_ [] (orElseEmpty none) = true ∧
      (next_question [] { plainBlock "w" with next := [rA, rB] } [] none ["a"] =
          next_question [] { plainBlock "w" with next := [rA] } [] none ["a"] ∧
        (∀ t, rA.targetId = some t → (t = "" ∨ ["a"].contains t = true) →
          next_question [] { plainBlock "w" with next := [rA, rB] } [] none ["a"] =
            default_fallback [] [] none ["a"])) :=
  ⟨rfl, c2_first_matching_route_decides [] (plainBlock "w") rA [rB] [] none ["a"] rfl⟩

/-- C3: the next-question decision never returns an already-asked
question id — the routed branch is guarded by the asked-set and the
declaration-order fallback skips asked blocks. -/
theorem c3_never_returns_asked (rules : List Block) (block : Block)
    (answers : AnswerSet) (et : Option Value) (asked : List String) (q : String)
    (hq : asked.contains q = true) :
    next_question rules block answers et asked ≠ some q := by
  unfold next_question
  cases hr : next_via_routes block answers (orElseEmpty et) with
  | none => exact default_fallback_not_asked rules answers et asked q hq
  | some t =>
      show (if (t != "" && !asked.contains t) = true then some t
            else default_fallback rules answers et asked) ≠ some q
      by_cases hg : (t != "" && !asked.contains t) = true
      · rw [if_pos hg]
        intro he
        injection he with he
        subst he
        rw [hq] at hg
        simp at hg
      · rw [if_neg hg]
        exact default_fallback_not_asked rules answers et asked q hq

/-- Witness for C3 at a concrete asked question. -/
theorem c3_never_returns_asked_witness :
    (["a"].contains "a") = true ∧
      next_question [] (plainBlock "p0") [] none ["a"] ≠ some "a" :=
  ⟨rfl, c3_never_returns_asked [] (plainBlock "p0") [] none ["a"] "a" rfl⟩

/-- C4: the risk classifier is the threshold function — HIGH exactly on
scores of 60 and above, MEDIUM exactly on 25 to 59, LOW below 25 — and
the report applies the very same function to each domain entry and to
the grand total. -/
theorem c4_threshold_classifier :
    (∀ s : Int,
        (risk_bucket s = "HIGH" ↔ 60 ≤ s) ∧
        (risk_bucket s = "MEDIUM" ↔ 25 ≤ s ∧ s < 60) ∧
        (risk_bucket s = "LOW" ↔ s < 25)) ∧
      (∀ st : SessionState,
        ((domains_list st).all (fun d => d.risk == risk_bucket d.score)) = true ∧
          overall_risk st = risk_bucket (total_score st)) := by
  constructor
  · intro s
    unfold risk_bucket
    by_cases h1 : s ≥ 60
    · rw [if_pos h1]
      exact ⟨⟨fun _ => h1, fun _ => rfl⟩,
        ⟨fun h => absurd h (by decide), fun h => absurd h.2 (by omega)⟩,
        ⟨fun h => absurd h (by decide), fun h => absurd h1 (by omega)⟩⟩
    · rw [if_neg h1]
      by_cases h2 : s ≥ 25
      · rw [if_pos h2]
        exact ⟨⟨fun h => absurd h (by decide), fun h => absurd h h1⟩,
          ⟨fun _ => ⟨h2, by omega⟩, fun _ => rfl⟩,
          ⟨fun h => absurd h (by decide), fun h => absurd h2 (by omega)⟩⟩
      · rw [if_neg h2]
        exact ⟨⟨fun h => absurd h (by decide), fun h => absurd h h1⟩,
          ⟨fun h => absurd h (by decide), fun h => absurd h.1 h2⟩,
          ⟨fun _ => by omega, fun _ => rfl⟩⟩
  · intro st
    refine ⟨?_, rfl⟩
    rw [List.all_eq_true]
    intro d hd
    obtain ⟨p, _, rfl⟩ := List.mem_map.mp hd
    exact beq_self_eq_true _

/-- C7: a rulebook with no explicit entity-type block normalizes to the
built-in entity picker followed by the input blocks in order, each with
the defaults applied: synthesized id from the 1-based index and the
slugged question text when `id` is missing, `singleSelect` when `kind`
is missing, the `all` sentinel when `appliesTo` is missing, and `[]`
when `options` is absent or null. -/
theorem c7_normalization_defaults (raw : List RawBlock)
    (h : ∀ b ∈ raw, b.id ≠ some "entityType") :
    normalize_rules raw = ENTITY_PICKER_BLOCK :: normalize_from 1 raw ∧
      ∀ (i : Nat) (b : RawBlock),
        normalize_block i b =
          { id := b.id.getD ("q" ++ pad2 i ++ "_" ++ _slug (b.question.getD "")),
            domain := b.domain, question := b.question,
            kind := b.kind.getD "singleSelect",
            appliesTo := b.appliesTo.getD (AppliesTo.strv "all"),
            options := b.options.getD [], showIf := b.showIf, next := b.next } := by
  refine ⟨?_, fun i b => rfl⟩
  show (if ((normalize_from 1 raw).any fun b => b.id == "entityType") = true
        then normalize_from 1 raw
        else ENTITY_PICKER_BLOCK :: normalize_from 1 raw) =
      ENTITY_PICKER_BLOCK :: normalize_from 1 raw
  rw [normalize_from_no_entityType raw 1 h]
  simp

/-- A raw block carrying only a question text, used by the C7 witness. -/
def rawQ : RawBlock :=
  { id := none, domain := none, question := some "What is your name", kind := none,
    appliesTo := none, options := none, showIf := .none_, next := [] }

/-- Witness for C7 on a one-block rulebook without an entity-type id. -/
theorem c7_normalization_defaults_witness :
    (∀ b ∈ [rawQ], b.id ≠ some "entityType") ∧
      normalize_rules [rawQ] = ENTITY_PICKER_BLOCK :: normalize_from 1 [rawQ] :=
  ⟨by decide, (c7_normalization_defaults [rawQ] (by decide)).1⟩

/-- C9: a firing route whose target is unasked is followed without
consulting the target's applicability or visibility — here both gates
are explicitly false for the target and the session still jumps to
it. -/
theorem c9_routes_bypass_gates (rules : List Block) (b tb : Block)
    (answers : AnswerSet) (et : Option Value) (asked : List String) (t : String)
    (hroute : next_via_routes b answers (orElseEmpty et) = some t)
    (hne : (t != "") = true) (hun : asked.contains t = false)
    (htb : by_id rules t = some tb)
    (hap : applies_to tb (orElseEmpty et) = false)
    (hvis : is_visible tb answers (orElseEmpty et) = false) :
    next_question rules b answers et asked = some t := by
  unfold next_question
  rw [hroute]
  have hc : (t != "" && !asked.contains t) = true := by rw [hne, hun]; rfl
  show (if (t != "" && !asked.contains t) = true then some t
        else default_fallback rules answers et asked) = some t
  rw [if_pos hc]

/-- Witness for C9: the route fires at `gatedTarget`, which applies to
no entity type and is never visible, and the session goes there. -/
theorem c9_routes_bypass_gates_witness :
    next_via_routes routeToGated [] (orElseEmpty (some (Value.s "E"))) = some "t" ∧
      by_id [gatedTarget] "t" = some gatedTarget ∧
      applies_to gatedTarget (orElseEmpty (some (Value.s "E"))) = false ∧
      is_visible gatedTarget [] (orElseEmpty (some (Value.s "E"))) = false ∧
      next_question [gatedTarget] routeToGated [] (some (Value.s "E")) [] = some "t" :=
  ⟨rfl, rfl, rfl, rfl,
    c9_routes_bypass_gates [gatedTarget] routeToGated gatedTarget [] (some (Value.s "E"))
      [] "t" rfl rfl rfl rfl rfl rfl⟩

/-- C10: when the recorded entity type is falsy (such as the empty
string from the free-text fallback), the declaration-order fallback is
skipped, so whenever routing yields no usable target the session ends
even though an unasked, applicable and visible block remains. -/
theorem c10_falsy_entity_completes (rules : List Block) (b : Block)
    (answers : AnswerSet) (et : Option Value) (asked : List String)
    (h1 : etTruthy et = false)
    (h2 : ∀ t, next_via_routes b answers (orElseEmpty et) = some t →
      t = "" ∨ asked.contains t = true)
    (h3 : (default_next rules answers (orElseEmpty et) asked).isSome = true) :
    next_question rules b answers et asked = none := by
  have hfb : default_fallback rules answers et asked = none := by
    unfold default_fallback
    rw [h1]
    simp
  unfold next_question
  cases hr : next_via_routes b answers (orElseEmpty et) with
  | none => exact hfb
  | some t =>
      show (if (t != "" && !asked.contains t) = true then some t
            else default_fallback rules answers et asked) = none
      rcases h2 t hr with he | ha
      · subst he
        simpa using hfb
      · have hc : (t != "" && !asked.contains t) = false := by rw [ha]; simp
        rw [if_neg (by rw [hc]; simp)]
        exact hfb

/-- Witness for C10: entity type recorded as the empty string, no
routes, and an eligible block `z` remaining — yet the session ends. -/
theorem c10_falsy_entity_completes_witness :
    etTruthy (some (Value.s "")) = false ∧
      next_via_routes (plainBlock "start") [] (orElseEmpty (some (Value.s ""))) = none ∧
      (default_next [plainBlock "z"] [] (orElseEmpty (some (Value.s ""))) []).isSome =
        true ∧
      next_question [plainBlock "z"] (plainBlock "start") [] (some (Value.s "")) [] =
        none :=
  ⟨rfl, rfl, rfl,
    c10_falsy_entity_completes [plainBlock "z"] (plainBlock "start") []
      (some (Value.s "")) [] rfl
      (fun t ht => Option.noConfusion (show (none : Option String) = some t from ht))
      rfl⟩

end CompetitionRisk
